import Mathlib

/-!
Verification of the VLC Discord Rich Presence plugin (C sources under `src/`).

The development shallowly embeds the pure computational content of the
plugin's IPC layer (`discordipc.c`), the presence formatting (`discord.c`),
and the settings parsing (`settings.c`):

* `JsonEscape` — the JSON string escaper (`discordipc.c`, `JsonEscape`);
* `buildSetActivity` — the SET_ACTIVITY JSON body built by
  `Impl_SetPresence` (`discordipc.c`);
* `classifyResponse` — the response classification performed by
  `SendDiscordMessageSync` (`discordipc.c`);
* `ReadAll` / `WriteAll` — the POSIX transfer loops, modelled over an
  explicit trace of OS primitive outcomes (`discordipc.c`);
* `Impl_Update_format` — the presence formatting of `Impl_Update`
  (`discord.c`);
* `Impl_Connect_scan` — the candidate-endpoint scan of `Impl_Connect`
  (`discordipc.c`, POSIX branch);
* an event-trace model of handle lifecycle for `Impl_Connect`,
  `Impl_SetPresence` and `Impl_Close` (`discordipc.c`);
* `DiscordRPC_LoadClientId` — the client-id validation of
  `DiscordRPC_LoadSettings` (`settings.c`), over a faithful model of
  base-10 `strtoull`.

Machine integers are modelled as `Nat`/`Int`; C strings are Lean `String`s
read up to the first NUL (hypotheses of the form `'\x00' ∉ s.data` record
that a value is the content of a C string, which cannot contain NUL).
-/

/-! ## String basics -/

/-- `(a ++ b).data = a.data ++ b.data` (definitional). -/
theorem strData_append (a b : String) : (a ++ b).data = a.data ++ b.data := rfl

/-- Strings with equal character data are equal. -/
theorem strEq_of_data {a b : String} (h : a.data = b.data) : a = b := by
  cases a; cases b; exact congrArg String.mk h

/-! ## JsonEscape (discordipc.c lines 559-571)

```
static void JsonEscape(char *psz_dest, const char *psz_src, size_t i_max)
{
    size_t j = 0;
    for (size_t i = 0; psz_src[i] != '\0' && j < i_max - 2; i++)
    {
        if (psz_src[i] == '\"' || psz_src[i] == '\\')
        {
            psz_dest[j++] = '\\';
        }
        psz_dest[j++] = psz_src[i];
    }
    psz_dest[j] = '\0';
}
```

Modelled for `i_max ≥ 2` (all call sites pass 256; for `i_max < 2` the
C expression `i_max - 2` underflows `size_t`, a case never exercised).
The function returns the written character data (before the final NUL). -/

/-- Whether a character must be backslash-escaped. -/
def needsEscape (c : Char) : Bool :=
  c == '"' || c == '\\'

/-- The escape loop: source characters still to process, current write
index `j`, capacity `i_max`. -/
def JsonEscapeAux : List Char → Nat → Nat → List Char
  | [], _, _ => []
  | c :: rest, j, imax =>
    if c = '\x00' then []
    else if j < imax - 2 then
      if needsEscape c then '\\' :: c :: JsonEscapeAux rest (j + 2) imax
      else c :: JsonEscapeAux rest (j + 1) imax
    else []

/-- `JsonEscape` on a whole string with destination capacity `imax`. -/
def JsonEscape (s : String) (imax : Nat) : String :=
  ⟨JsonEscapeAux s.data 0 imax⟩

/-- Untruncated escaping (what `JsonEscape` computes when the destination
is large enough). -/
def escapeFull : List Char → List Char
  | [] => []
  | c :: rest =>
    if needsEscape c then '\\' :: c :: escapeFull rest
    else c :: escapeFull rest

/-- Cost in output characters of escaping one source character. -/
def escCost (c : Char) : Nat :=
  if needsEscape c then 2 else 1

/-- Length of the untruncated escaped form. -/
def escLen (l : List Char) : Nat :=
  (l.map escCost).sum

/-- Un-escaping: drops one backslash before each escaped character. -/
def jsonUnescape : List Char → List Char
  | [] => []
  | [c] => [c]
  | c :: d :: rest =>
    if c = '\\' then d :: jsonUnescape rest
    else c :: jsonUnescape (d :: rest)

/-- Well-formed escaped output: a sequence of units, each either a plain
unescaped character or a backslash followed by the escaped character.
Such a list never ends in an unpaired backslash. -/
inductive EscapedForm : List Char → Prop
  | nil : EscapedForm []
  | esc (c : Char) (h : needsEscape c = true) {rest : List Char}
      (hr : EscapedForm rest) : EscapedForm ('\\' :: c :: rest)
  | plain (c : Char) (h : needsEscape c = false) {rest : List Char}
      (hr : EscapedForm rest) : EscapedForm (c :: rest)

/-! ## ReadAll / WriteAll (discordipc.c lines 576-652 and 657-738, POSIX branch)

The transfer loops are modelled over an explicit trace of outcomes of the
OS primitives (`poll`, `send`, `recv`), one trace entry per loop
iteration.  The model returns the C function's boolean result together
with the number of bytes actually transferred; an exhausted trace stands
for an incomplete run and is reported as failure. -/

/-- Outcome of one iteration of the `WriteAll` loop. -/
inductive WStep
  /-- `poll` returned `<= 0` (timeout or error). -/
  | pollTimeout
  /-- `poll` flagged `POLLHUP`/`POLLERR` (peer closed). -/
  | pollHup
  /-- `send` returned `<= 0` (includes `EPIPE`). -/
  | sendFail
  /-- `send` transferred `n > 0` bytes. -/
  | sendData (n : Nat)

/-- `WriteAll` over a trace: returns (C result, total bytes sent). -/
def WriteAll (size : Nat) : List WStep → Nat → Bool × Nat
  | [], sent => if size ≤ sent then (true, sent) else (false, sent)
  | s :: rest, sent =>
    if size ≤ sent then (true, sent)
    else
      match s with
      | WStep.pollTimeout => (false, sent)
      | WStep.pollHup => (false, sent)
      | WStep.sendFail => (false, sent)
      | WStep.sendData n => WriteAll size rest (sent + n)

/-- Outcome of one iteration of the `ReadAll` loop. -/
inductive RStep
  /-- `poll` returned `<= 0`. -/
  | pollTimeout
  /-- `poll` flagged `POLLHUP`/`POLLERR`. -/
  | pollHup
  /-- `recv` returned `0` (peer closed). -/
  | recvClosed
  /-- `recv` returned `-1` with `errno == EINTR` (loop continues). -/
  | recvEINTR
  /-- `recv` returned `-1` with `errno == EAGAIN`/`EWOULDBLOCK`. -/
  | recvEAGAIN
  /-- `recv` returned `-1` with `errno == ECONNRESET`. -/
  | recvECONNRESET
  /-- `recv` returned `-1` with any other `errno`. -/
  | recvErrOther
  /-- `recv` transferred `n > 0` bytes. -/
  | recvData (n : Nat)

/-- `ReadAll` over a trace: returns (C result, total bytes received).
Note the `recvEAGAIN` case: the source returns `true` there without
having received the requested byte count. -/
def ReadAll (size : Nat) : List RStep → Nat → Bool × Nat
  | [], recvd => if size ≤ recvd then (true, recvd) else (false, recvd)
  | s :: rest, recvd =>
    if size ≤ recvd then (true, recvd)
    else
      match s with
      | RStep.pollTimeout => (false, recvd)
      | RStep.pollHup => (false, recvd)
      | RStep.recvClosed => (false, recvd)
      | RStep.recvEINTR => ReadAll size rest recvd
      | RStep.recvEAGAIN => (true, recvd)
      | RStep.recvECONNRESET => (false, recvd)
      | RStep.recvErrOther => (false, recvd)
      | RStep.recvData n => ReadAll size rest (recvd + n)

/-! ## Response classification (discordipc.c lines 790-839, inside
`SendDiscordMessageSync`)

`strstr` is modelled by `strstrSuffix`, which returns the suffix of the
haystack starting at the first occurrence of the pattern (the C pointer
into the buffer); `strchr` by `takeUntilQuote`. -/

/-- `leadsWith pat l`: `pat` occurs at the very start of `l`. -/
def leadsWith : List Char → List Char → Bool
  | [], _ => true
  | _ :: _, [] => false
  | p :: ps, c :: cs => p == c && leadsWith ps cs

/-- Model of `strstr`: the suffix of `hay` beginning at the first
occurrence of `pat`, or `none`. -/
def strstrSuffix (pat : List Char) : List Char → Option (List Char)
  | [] => if leadsWith pat [] then some [] else none
  | c :: rest =>
    if leadsWith pat (c :: rest) then some (c :: rest)
    else strstrSuffix pat rest

/-- Whether `pat` occurs anywhere in `hay` (`strstr != NULL`). -/
def containsSeq (pat hay : List Char) : Bool :=
  (strstrSuffix pat hay).isSome

/-- Model of `strchr(p, '\"')` followed by truncation: the characters
before the first double quote, or `none` when no quote follows. -/
def takeUntilQuote : List Char → Option (List Char)
  | [] => none
  | c :: rest =>
    if c = '"' then some []
    else (takeUntilQuote rest).map (fun l => c :: l)

/-- The three success markers tested on the response body. -/
def hasMarker (body : String) : Bool :=
  containsSeq "\"evt\":\"READY\"".data body.data ||
  containsSeq "\"cmd\":\"SET_ACTIVITY\"".data body.data ||
  containsSeq "\"code\":0".data body.data

/-- Classification outcome: success, an extracted `message` value, or one
of the two generic error reports of the source. -/
inductive RespClass
  | ok
  /-- `"message":"` found and a closing quote followed: that quoted value
  is passed to the error sink. -/
  | errMsg (s : String)
  /-- `"message":"` found but no closing quote: the source reports
  "Unknown Discord error occurred.". -/
  | errUnknown
  /-- no `"message":"` key: the source reports "Unrecognized Discord
  response or protocol error.". -/
  | errUnrecognized
deriving DecidableEq

/-- The key whose value is extracted on failure. -/
def msgKey : String := "\"message\":\""

/-- Response classification as performed by `SendDiscordMessageSync`:
success markers first; otherwise extraction of the `message` field (the
`+= 11` skip of the source is the length of `msgKey`). -/
def classifyResponse (body : String) : RespClass :=
  if hasMarker body then RespClass.ok
  else
    match strstrSuffix msgKey.data body.data with
    | none => RespClass.errUnrecognized
    | some suff =>
      match takeUntilQuote (suff.drop 11) with
      | none => RespClass.errUnknown
      | some m => RespClass.errMsg ⟨m⟩

/-! ## Presence formatting (discord.c lines 296-368, `Impl_Update`)

`snprintf` into the 128-byte presence fields keeps at most 127 content
characters; `snprintf128` models that truncation. -/

/-- Media metadata (metadata.h, `vlc_discord_metadata_t`). -/
structure Metadata where
  sz_title : String
  sz_artist : String
  sz_album : String
  i_start_time : Int
  i_end_time : Int
  b_is_video : Bool
  b_is_paused : Bool
  b_is_playing : Bool

/-- Plugin settings (settings.h, `vlc_discord_settings_t`). -/
structure Settings where
  i_client_id : Nat
  b_enabled : Bool
  b_show_artist : Bool
  b_show_album : Bool

/-- Presence payload (discordipc.h, `discord_presence_t`). -/
structure Presence where
  sz_state : String
  sz_details : String
  sz_large_image : String
  sz_large_text : String
  sz_small_image : String
  sz_small_text : String
  i_start_time : Int
  i_end_time : Int
deriving DecidableEq

/-- The zeroed presence (`memset(&presence, 0, ...)`). -/
def Presence.empty : Presence :=
  ⟨"", "", "", "", "", "", 0, 0⟩

/-- `snprintf(dst, 128, "%s", src)`: at most 127 content characters. -/
def snprintf128 (s : String) : String :=
  ⟨s.data.take 127⟩

/-- The presence computed by `Impl_Update` from metadata and settings
(the code path guarded by `b_enabled`; the function starts from the
zeroed presence). -/
def Impl_Update_format (st : Settings) (md : Metadata) : Presence :=
  if md.b_is_playing = true then
    let p0 := Presence.empty
    let p1 :=
      if md.b_is_paused = true then
        { p0 with sz_small_image := snprintf128 "pause",
                  sz_small_text := snprintf128 "Paused" }
      else
        { p0 with sz_small_image := snprintf128 "play",
                  sz_small_text := snprintf128 "Playing",
                  i_start_time := md.i_start_time,
                  i_end_time := md.i_end_time }
    let p2 :=
      { p1 with sz_large_image := snprintf128 "large_image_default",
                sz_large_text := snprintf128 "VLC Media Player" }
    let p3 :=
      if st.b_show_artist = true ∧ md.sz_artist ≠ "" ∧
         st.b_show_album = true ∧ md.sz_album ≠ "" then
        { p2 with sz_state := snprintf128 (md.sz_artist ++ " - " ++ md.sz_album) }
      else if st.b_show_artist = true ∧ md.sz_artist ≠ "" then
        { p2 with sz_state := snprintf128 md.sz_artist }
      else if st.b_show_album = true ∧ md.sz_album ≠ "" then
        { p2 with sz_state := snprintf128 md.sz_album }
      else p2
    { p3 with sz_details := snprintf128 md.sz_title }
  else
    { Presence.empty with
        sz_large_image := snprintf128 "large_image_default",
        sz_large_text := snprintf128 "VLC Media Player",
        sz_details := snprintf128 "Idling" }

/-- The state line as the spec describes it: artist and/or album
according to the show flags, with `"Artist - Album"` when both are shown
and non-empty.  (Specification-side rendering, compared with the source
in the theorem for C5.) -/
def stateLineSpec (st : Settings) (md : Metadata) : String :=
  if st.b_show_artist = true ∧ md.sz_artist ≠ "" ∧
     st.b_show_album = true ∧ md.sz_album ≠ "" then
    md.sz_artist ++ " - " ++ md.sz_album
  else if st.b_show_artist = true ∧ md.sz_artist ≠ "" then
    md.sz_artist
  else if st.b_show_album = true ∧ md.sz_album ≠ "" then
    md.sz_album
  else ""

/-! ## SET_ACTIVITY JSON body (discordipc.c lines 897-1006, `Impl_SetPresence`)

The `snprintf` chain appending to `psz_json` is string concatenation: the
fields come from the fixed-size buffers of `discord_presence_t` (at most
127 content characters each, escaped into 256-byte locals), so the total
stays well below the 2048-byte buffer and `snprintf` never truncates
here.  The `b_need_comma`/`hasAsset` flag threading is captured by
`emitFrag`. -/

/-- One conditional `snprintf` append of a JSON fragment with the
source's comma bookkeeping: `acc` is (buffer so far, need-comma flag). -/
def emitFrag (acc : String × Bool) (cond : Bool) (frag : String) : String × Bool :=
  if cond then (acc.1 ++ (if acc.2 then "," else "") ++ frag, true) else acc

/-- The JSON body built by `Impl_SetPresence` before sending. -/
def buildSetActivity (pid : Nat) (nonce : String) (p : Presence) : String :=
  let s_state := JsonEscape p.sz_state 256
  let s_details := JsonEscape p.sz_details 256
  let s_l_text := JsonEscape p.sz_large_text 256
  let s_s_text := JsonEscape p.sz_small_text 256
  let j0 := "\x7b\"cmd\":\"SET_ACTIVITY\",\"args\":\x7b\"pid\":" ++ toString pid ++
    ",\"activity\":\x7b"
  let a1 := emitFrag (j0, false) (s_state ≠ "")
    ("\"state\":\"" ++ s_state ++ "\"")
  let a2 := emitFrag a1 (s_details ≠ "")
    ("\"details\":\"" ++ s_details ++ "\"")
  let a3 := emitFrag a2 (0 < p.i_start_time)
    ("\"timestamps\":\x7b\"start\":" ++ toString p.i_start_time ++
      (if 0 < p.i_end_time then ",\"end\":" ++ toString p.i_end_time else "") ++
      "\x7d")
  let b0 := emitFrag (("", false) : String × Bool) (p.sz_large_image ≠ "")
    ("\"large_image\":\"" ++ p.sz_large_image ++ "\"")
  let b1 := emitFrag b0 (s_l_text ≠ "")
    ("\"large_text\":\"" ++ s_l_text ++ "\"")
  let b2 := emitFrag b1 (p.sz_small_image ≠ "")
    ("\"small_image\":\"" ++ p.sz_small_image ++ "\"")
  let b3 := emitFrag b2 (s_s_text ≠ "")
    ("\"small_text\":\"" ++ s_s_text ++ "\"")
  let a4 := emitFrag a3 (p.sz_large_image ≠ "" ∨ p.sz_small_image ≠ "")
    ("\"assets\":\x7b" ++ b3.1 ++ "\x7d")
  a4.1 ++ "\x7d\x7d,\"nonce\":\"" ++ nonce ++ "\"\x7d"

/-- Comma-joined list of fragments (specification-side). -/
def joinComma : List String → String
  | [] => ""
  | [x] => x
  | x :: xs => x ++ "," ++ joinComma xs

/-- The asset fragments the specification expects inside `assets`
(specification-side rendering). -/
def assetFragsSpec (p : Presence) : List String :=
  (if p.sz_large_image ≠ "" then
    ["\"large_image\":\"" ++ p.sz_large_image ++ "\""] else []) ++
  (if p.sz_large_text ≠ "" then
    ["\"large_text\":\"" ++ JsonEscape p.sz_large_text 256 ++ "\""] else []) ++
  (if p.sz_small_image ≠ "" then
    ["\"small_image\":\"" ++ p.sz_small_image ++ "\""] else []) ++
  (if p.sz_small_text ≠ "" then
    ["\"small_text\":\"" ++ JsonEscape p.sz_small_text 256 ++ "\""] else [])

/-- The activity-object fragments the specification expects: exactly one
fragment per non-empty field group (specification-side rendering). -/
def activityFragsSpec (p : Presence) : List String :=
  (if p.sz_state ≠ "" then
    ["\"state\":\"" ++ JsonEscape p.sz_state 256 ++ "\""] else []) ++
  (if p.sz_details ≠ "" then
    ["\"details\":\"" ++ JsonEscape p.sz_details 256 ++ "\""] else []) ++
  (if 0 < p.i_start_time then
    ["\"timestamps\":\x7b\"start\":" ++ toString p.i_start_time ++
      (if 0 < p.i_end_time then ",\"end\":" ++ toString p.i_end_time else "") ++
      "\x7d"] else []) ++
  (if p.sz_large_image ≠ "" ∨ p.sz_small_image ≠ "" then
    ["\"assets\":\x7b" ++ joinComma (assetFragsSpec p) ++ "\x7d"] else [])

/-! ## Endpoint discovery (discordipc.c lines 1008-1099, `Impl_Connect`,
POSIX branch)

The loop over candidate indices 0..9 is modelled over an environment
giving the outcome of each OS-level step: socket creation, `connect` to
the primary (`XDG_RUNTIME_DIR`) path or the `/tmp` fallback, and the
handshake exchange.  `hasXdg` is whether `XDG_RUNTIME_DIR` was set (when
unset the primary path already is `/tmp` and the fallback branch is
skipped, `psz_temp_path != psz_fallback_path` being pointer equality). -/

/-- Candidate location: the primary runtime directory or `/tmp`. -/
inductive Loc
  | primary
  | fallback
deriving DecidableEq

/-- Environment of OS outcomes for one `Impl_Connect` call. -/
structure ConnEnv where
  hasXdg : Bool
  sockOk : Nat → Bool
  connOk : Nat → Loc → Bool
  hsOk : Nat → Loc → Bool

/-- Whether candidate index `i` yields a connection: the socket opens and
either the primary connect+handshake succeeds, or (fallback directory
distinct) the fallback connect+handshake succeeds. -/
def tryCandidate (env : ConnEnv) (i : Nat) : Bool :=
  env.sockOk i &&
    ((env.connOk i Loc.primary && env.hsOk i Loc.primary) ||
     (env.hasXdg && env.connOk i Loc.fallback && env.hsOk i Loc.fallback))

/-- The scan over the candidate indices, returning the first succeeding
index; `Impl_Connect` runs it on `List.range 10`
(`MAX_PIPE_ATTEMPTS = 10`). -/
def Impl_Connect_scan (env : ConnEnv) : List Nat → Option Nat
  | [] => none
  | i :: rest =>
    if tryCandidate env i then some i else Impl_Connect_scan env rest

/-- Result of an `Impl_Connect` call. -/
structure ConnectResult where
  success : Bool
  chosen : Option Nat
  errorReported : Bool
deriving DecidableEq

/-- `Impl_Connect`: scan candidates 0..9; on exhaustion report through
the error sink ("Could not connect to Discord.") and return `false`. -/
def Impl_Connect (env : ConnEnv) : ConnectResult :=
  match Impl_Connect_scan env (List.range 10) with
  | some i => ⟨true, some i, false⟩
  | none => ⟨false, none, true⟩

/-! ## Handle lifecycle event model (discordipc.c: `Impl_Connect` handle
bookkeeper, `Impl_SetPresence` lines 985-999, `Impl_Close` lines 842-881;
discord.c: `Impl_Close` lines 375-390, `Discord_Callbacks` lines 252-262)

Each socket the plugin ever opens is given a fresh generation number, so
"the same handle" is expressible even after the numeric fd would have
been reused by the OS.  Events record opening, transport I/O (handshake,
presence frame, clear-activity frame), the transport reporting a
peer-closed condition, and `close(2)`. -/

/-- Lifecycle events, tagged with the generation of the socket used. -/
inductive Ev
  /-- `socket(2)` succeeded, producing generation `g`. -/
  | opened (g : Nat)
  /-- handshake bytes exchanged on `g`. -/
  | ioHandshake (g : Nat)
  /-- a SET_ACTIVITY frame exchanged on `g`. -/
  | ioPresence (g : Nat)
  /-- the clear-activity frame of `Impl_Close` sent on `g`. -/
  | ioClear (g : Nat)
  /-- the transport reported peer-closed (`bp_errpipe`) on `g`. -/
  | errReported (g : Nat)
  /-- `close(2)` called on `g`. -/
  | closed (g : Nat)
  /-- the worker thread returned from `Discord_Callbacks`. -/
  | workerExit
  /-- `Impl_Close` (discord.c) returned to its caller. -/
  | stopReturn
deriving DecidableEq

/-- IPC private state: the stored handle field as an optional generation
(`none` = `INVALID_PIPE`), plus the next fresh generation. -/
structure IpcSt where
  handle : Option Nat
  connected : Bool
  nextGen : Nat
deriving DecidableEq

/-- Outcomes of the OS-level steps for one candidate of the connect
loop. -/
structure CandOutcome where
  sockOk : Bool
  primConn : Bool
  primHs : Bool
  fbConn : Bool
  fbHs : Bool

/-- One iteration of the POSIX connect loop, threading the handle field
exactly as the source does.  On total failure of the candidate the
socket is closed but the handle field KEEPS the (now closed) generation:
the source has no `p_sys->handle = INVALID_PIPE` after `close`. -/
def connectCand (hasXdg : Bool) (st : IpcSt) (c : CandOutcome) :
    IpcSt × List Ev × Bool :=
  if c.sockOk = false then
    ({ st with handle := none }, [], false)
  else
    let g := st.nextGen
    let st1 : IpcSt := { st with handle := some g, nextGen := g + 1 }
    if c.primConn ∧ c.primHs then
      ({ st1 with connected := true }, [Ev.opened g, Ev.ioHandshake g], true)
    else
      let evsPrim := if c.primConn then [Ev.ioHandshake g] else []
      if hasXdg ∧ c.fbConn ∧ c.fbHs then
        ({ st1 with connected := true },
          Ev.opened g :: evsPrim ++ [Ev.ioHandshake g], true)
      else
        let evsFb := if hasXdg ∧ c.fbConn then [Ev.ioHandshake g] else []
        (st1, Ev.opened g :: evsPrim ++ evsFb ++ [Ev.closed g], false)

/-- The whole connect loop over the outcome list (10 candidates). -/
def connectLoop (hasXdg : Bool) (st : IpcSt) : List CandOutcome →
    IpcSt × List Ev × Bool
  | [] => (st, [], false)
  | c :: cs =>
    let r := connectCand hasXdg st c
    if r.2.2 then r
    else
      let r2 := connectLoop hasXdg r.1 cs
      (r2.1, r.2.1 ++ r2.2.1, r2.2.2)

/-- `Impl_SetPresence` at the handle level: no I/O when the handle field
is invalid; otherwise one presence frame, and when the transport reports
peer-closed the socket is closed and the handle reset to invalid. -/
def setPresenceStep (st : IpcSt) (errpipe : Bool) : IpcSt × List Ev :=
  match st.handle with
  | none => (st, [])
  | some g =>
    if errpipe then
      ({ st with handle := none, connected := false },
        [Ev.ioPresence g, Ev.errReported g, Ev.closed g])
    else (st, [Ev.ioPresence g])

/-- `Impl_Close` (discordipc.c) at the handle level: nothing when the
handle field is invalid; otherwise the clear-activity frame is sent on
the stored handle, which is then closed and reset to invalid. -/
def ipcCloseStep (st : IpcSt) : IpcSt × List Ev :=
  match st.handle with
  | none => (st, [])
  | some g =>
    ({ st with handle := none, connected := false },
      [Ev.ioClear g, Ev.closed g])

/-- `Impl_Close` (discord.c) from a running worker: clears `b_run`, and
`vlc_join` lets the worker finish — the worker leaves its loops, runs
`ipc.pf_close` then `ipc.pf_destroy`, and only then does the join (and
hence the `stop()` call) return. -/
def stopFromRunning (st : IpcSt) : List Ev :=
  (ipcCloseStep st).2 ++ [Ev.workerExit, Ev.stopReturn]

/-- Trace soundness: no I/O event on a generation that was already
closed or already reported as errored (scanning left to right). -/
def noUseAfterCloseAux : List Ev → List Nat → Bool
  | [], _ => true
  | Ev.opened _ :: rest, dead => noUseAfterCloseAux rest dead
  | Ev.ioHandshake g :: rest, dead =>
    !dead.contains g && noUseAfterCloseAux rest dead
  | Ev.ioPresence g :: rest, dead =>
    !dead.contains g && noUseAfterCloseAux rest dead
  | Ev.ioClear g :: rest, dead =>
    !dead.contains g && noUseAfterCloseAux rest dead
  | Ev.errReported g :: rest, dead => noUseAfterCloseAux rest (g :: dead)
  | Ev.closed g :: rest, dead => noUseAfterCloseAux rest (g :: dead)
  | Ev.workerExit :: rest, dead => noUseAfterCloseAux rest dead
  | Ev.stopReturn :: rest, dead => noUseAfterCloseAux rest dead

/-- A trace never performs I/O on a closed or errored-out handle. -/
def noUseAfterClose (tr : List Ev) : Bool :=
  noUseAfterCloseAux tr []

/-- The all-fail outcome: the socket opens but neither location accepts
the connection (Discord not running). -/
def allFailOutcome : CandOutcome :=
  ⟨true, false, false, false, false⟩

/-- The fresh IPC state (`DiscordRPC_CreateIPC`: handle = INVALID_PIPE). -/
def IpcSt.init : IpcSt :=
  ⟨none, false, 0⟩

/-! ## Client-id parsing (settings.c lines 30-58, `DiscordRPC_LoadSettings`)

`strtoull(s, &end, 10)` is modelled faithfully: optional leading
whitespace, an optional single `+`/`-` sign, then decimal digits; the
value is clamped to `ULLONG_MAX` on overflow and negated modulo `2^64`
for `-`; when no digit follows, no characters are consumed. -/

/-- `isspace` characters skipped by `strtoull`. -/
def isSpaceC (c : Char) : Bool :=
  c == ' ' || c == '\t' || c == '\n' || c == '\x0b' || c == '\x0c' || c == '\r'

/-- Numeric value of a digit run (most significant first). -/
def digitsVal (l : List Char) : Nat :=
  l.foldl (fun a c => a * 10 + (c.toNat - '0'.toNat)) 0

/-- Split an optional sign: (negative?, rest, characters consumed). -/
def splitSign : List Char → Bool × List Char × Nat
  | [] => (false, [], 0)
  | c :: t =>
    if c = '+' then (false, t, 1)
    else if c = '-' then (true, t, 1)
    else (false, c :: t, 0)

/-- Model of `strtoull(s, &end, 10)`: returns (value, characters
consumed); consumed `= 0` exactly when no conversion was performed. -/
def strtoull10 (s : List Char) : Nat × Nat :=
  let ws := s.takeWhile isSpaceC
  let s1 := s.drop ws.length
  let sg := splitSign s1
  let ds := sg.2.1.takeWhile Char.isDigit
  if ds = [] then (0, 0)
  else
    let v := digitsVal ds
    let v1 :=
      if 2 ^ 64 ≤ v then 2 ^ 64 - 1
      else if sg.1 then (2 ^ 64 - v) % 2 ^ 64
      else v
    (v1, ws.length + sg.2.2 + ds.length)

/-- The hardcoded default application id (settings.h,
`DEFAULT_CLIENT_ID`). -/
def defaultClientId : Nat := 1041018234058571847

/-- The client-id loading of `DiscordRPC_LoadSettings`: the configured
string (or `none` when unset) is validated and parsed. -/
def DiscordRPC_LoadClientId (cfg : Option String) : Nat :=
  match cfg with
  | none => defaultClientId
  | some s =>
    let r := strtoull10 s.data
    if r.2 = 0 ∨ r.2 ≠ s.data.length ∨ s.data.length < 17 ∨ 20 < s.data.length
    then defaultClientId
    else r.1

/-! # Lemmas and claim theorems -/

/-! ## Escaping lemmas -/

theorem escapeAux_length (src : List Char) (imax : Nat) :
    ∀ j, j + (JsonEscapeAux src j imax).length ≤ imax - 1 ∨
      JsonEscapeAux src j imax = [] := by
  induction src with
  | nil => intro j; exact Or.inr rfl
  | cons c rest ih =>
    intro j
    by_cases h0 : c = '\x00'
    · exact Or.inr (by simp [JsonEscapeAux, h0])
    · by_cases hj : j < imax - 2
      · have h2 : imax ≥ j + 3 := by omega
        by_cases he : needsEscape c = true
        · left
          simp only [JsonEscapeAux]
          rw [if_neg h0, if_pos hj, if_pos he]
          simp only [List.length_cons]
          rcases ih (j + 2) with h | h
          · omega
          · rw [h]; simp; omega
        · left
          simp only [JsonEscapeAux]
          rw [if_neg h0, if_pos hj, if_neg he]
          simp only [List.length_cons]
          rcases ih (j + 1) with h | h
          · omega
          · rw [h]; simp; omega
      · refine Or.inr ?_
        simp only [JsonEscapeAux]
        rw [if_neg h0, if_neg hj]

theorem escapeAux_escapedForm (src : List Char) (imax : Nat) :
    ∀ j, EscapedForm (JsonEscapeAux src j imax) := by
  induction src with
  | nil => intro j; exact EscapedForm.nil
  | cons c rest ih =>
    intro j
    by_cases h0 : c = '\x00'
    · simp only [JsonEscapeAux]; rw [if_pos h0]; exact EscapedForm.nil
    · by_cases hj : j < imax - 2
      · by_cases he : needsEscape c = true
        · simp only [JsonEscapeAux]
          rw [if_neg h0, if_pos hj, if_pos he]
          exact EscapedForm.esc c he (ih (j + 2))
        · simp only [JsonEscapeAux]
          rw [if_neg h0, if_pos hj, if_neg he]
          exact EscapedForm.plain c (by simpa using he) (ih (j + 1))
      · simp only [JsonEscapeAux]
        rw [if_neg h0, if_neg hj]
        exact EscapedForm.nil

theorem escLen_cons (c : Char) (l : List Char) :
    escLen (c :: l) = escCost c + escLen l := by
  simp [escLen]

theorem escCost_pos (c : Char) : 1 ≤ escCost c := by
  unfold escCost; split <;> omega

theorem escapeAux_no_trunc (src : List Char) (imax : Nat) :
    ∀ j, (∀ c ∈ src, c ≠ '\x00') → j + escLen src + 2 ≤ imax →
      JsonEscapeAux src j imax = escapeFull src := by
  induction src with
  | nil => intro j _ _; rfl
  | cons c rest ih =>
    intro j hnul hfit
    have h0 : ¬ c = '\x00' := hnul c (List.mem_cons_self c rest)
    have hc1 : 1 ≤ escCost c := escCost_pos c
    rw [escLen_cons] at hfit
    have hj : j < imax - 2 := by omega
    by_cases he : needsEscape c = true
    · have hcost : escCost c = 2 := by simp [escCost, he]
      simp only [JsonEscapeAux, escapeFull]
      rw [if_neg h0, if_pos hj, if_pos he, if_pos he]
      rw [ih (j + 2) (fun d hd => hnul d (List.mem_cons_of_mem c hd)) (by omega)]
    · have hcost : escCost c = 1 := by simp [escCost, he]
      simp only [JsonEscapeAux, escapeFull]
      rw [if_neg h0, if_pos hj, if_neg he, if_neg he]
      rw [ih (j + 1) (fun d hd => hnul d (List.mem_cons_of_mem c hd)) (by omega)]

theorem escapeFull_length (l : List Char) :
    (escapeFull l).length = escLen l := by
  induction l with
  | nil => rfl
  | cons c rest ih =>
    rw [escLen_cons]
    by_cases he : needsEscape c = true
    · have : escCost c = 2 := by simp [escCost, he]
      simp only [escapeFull]
      rw [if_pos he, this]
      simp [ih]
      omega
    · have : escCost c = 1 := by simp [escCost, he]
      simp only [escapeFull]
      rw [if_neg he, this]
      simp [ih]
      omega

theorem escapeFull_eq_nil_iff (l : List Char) : escapeFull l = [] ↔ l = [] := by
  cases l with
  | nil => simp [escapeFull]
  | cons c rest =>
    simp only [escapeFull]
    constructor
    · intro h; split at h <;> simp at h
    · intro h; simp at h

theorem needsEscape_false_ne (c : Char) (h : needsEscape c = false) :
    c ≠ '\\' := by
  intro hc; subst hc; simp [needsEscape] at h

theorem jsonUnescape_escapeFull (l : List Char) :
    jsonUnescape (escapeFull l) = l := by
  induction l with
  | nil => rfl
  | cons c rest ih =>
    by_cases he : needsEscape c = true
    · simp only [escapeFull]
      rw [if_pos he]
      simp [jsonUnescape, ih]
    · have he2 : needsEscape c = false := by simpa using he
      simp only [escapeFull]
      rw [if_neg he]
      cases hrest : escapeFull rest with
      | nil =>
        have h3 : rest = [] := (escapeFull_eq_nil_iff rest).mp hrest
        subst h3
        rfl
      | cons d Y =>
        simp only [jsonUnescape, if_neg (needsEscape_false_ne c he2)]
        rw [← hrest, ih]

/-! ## Claim C1 — transfer loops -/

/-- C1: the claim states that `WriteAll`/`ReadAll` return success only
when the full requested byte count has been transferred, for all OS
outcome interleavings.  This holds for `WriteAll` (first conjunct), but
`ReadAll` returns success after `recv` reports `EAGAIN`/`EWOULDBLOCK`
with nothing transferred (second conjunct: 0 of 8 requested header bytes
read, result `true`) — the short-read bug the code path at
discordipc.c lines 727-729 introduces. -/
theorem C1_transfer_completion :
    (∀ (size : Nat) (tr : List WStep) (sent : Nat),
        (WriteAll size tr sent).1 = true → size ≤ (WriteAll size tr sent).2) ∧
    ReadAll 8 [RStep.recvEAGAIN] 0 = (true, 0) := by
  constructor
  · intro size tr
    induction tr with
    | nil =>
      intro sent h
      by_cases hs : size ≤ sent
      · simpa [WriteAll, hs] using hs
      · simp [WriteAll, hs] at h
    | cons s rest ih =>
      intro sent h
      by_cases hs : size ≤ sent
      · simpa [WriteAll, hs] using hs
      · cases s with
        | pollTimeout => simp [WriteAll, hs] at h
        | pollHup => simp [WriteAll, hs] at h
        | sendFail => simp [WriteAll, hs] at h
        | sendData n =>
          simp only [WriteAll] at h ⊢
          rw [if_neg hs] at h ⊢
          exact ih (sent + n) h
  · rfl

/-- Witness for C1 at a concrete input: a write of 4 bytes completed by
one `send` of 4 bytes is reported as success with all 4 bytes sent. -/
theorem C1_transfer_completion_witness :
    4 ≤ (WriteAll 4 [WStep.sendData 4] 0).2 :=
  C1_transfer_completion.1 4 [WStep.sendData 4] 0 (by decide)

/-! ## Claim C3 — escaping round trip -/

/-- C3 counterexample: the claim quantifies over every input string
containing `"` or `\`, but escaping is truncated to the destination
capacity (256 at every call site): 200 backslashes escape to 254
backslashes (127 pairs), which un-escape to 127 backslashes, not the
original 200. -/
theorem C3_escape_roundtrip_counterexample :
    jsonUnescape (JsonEscape ⟨List.replicate 200 '\\'⟩ 256).data ≠
      (⟨List.replicate 200 '\\'⟩ : String).data ∧
    (⟨List.replicate 200 '\\'⟩ : String).data.contains '\\' = true := by
  decide

/-- C3 (amended): for an input containing `"` or `\` whose escaped form
fits the destination capacity (`escLen + 2 ≤ i_max`, which makes the
truncation guard never fire), un-escaping the output recovers the
original string; and for every input and capacity of at least 2 bytes
(the model's faithful region — below 2 the C `size_t` expression
`i_max - 2` wraps and the loop overruns) the output plus its NUL
terminator never exceeds the capacity. -/
theorem C3_escape_roundtrip (s : String) (imax : Nat)
    (hnul : '\x00' ∉ s.data)
    (hq : s.data.contains '"' = true ∨ s.data.contains '\\' = true)
    (hfit : escLen s.data + 2 ≤ imax) :
    jsonUnescape (JsonEscape s imax).data = s.data ∧
    (JsonEscape s imax).data.length + 1 ≤ imax ∧
    (∀ (t : String) (jmax : Nat), 2 ≤ jmax →
      (JsonEscape t jmax).data.length + 1 ≤ jmax) := by
  have hnul2 : ∀ c ∈ s.data, c ≠ '\x00' := by
    intro c hc hce
    exact hnul (hce ▸ hc)
  have hfull : JsonEscapeAux s.data 0 imax = escapeFull s.data :=
    escapeAux_no_trunc s.data imax 0 hnul2 (by omega)
  refine ⟨?_, ?_, ?_⟩
  · show jsonUnescape (JsonEscapeAux s.data 0 imax) = s.data
    rw [hfull]
    exact jsonUnescape_escapeFull s.data
  · show (JsonEscapeAux s.data 0 imax).length + 1 ≤ imax
    rw [hfull, escapeFull_length]
    omega
  · intro t jmax h1
    rcases escapeAux_length t.data jmax 0 with h | h
    · show (JsonEscapeAux t.data 0 jmax).length + 1 ≤ jmax
      omega
    · show (JsonEscapeAux t.data 0 jmax).length + 1 ≤ jmax
      rw [h]
      simp
      omega

/-- Witness for C3 at a concrete input: `a"b` escapes within capacity 10
and un-escapes back to `a"b`. -/
theorem C3_escape_roundtrip_witness :
    jsonUnescape (JsonEscape "a\"b" 10).data = "a\"b".data ∧
    (JsonEscape "a\"b" 10).data.length + 1 ≤ 10 := by
  have h := C3_escape_roundtrip "a\"b" 10 (by decide) (Or.inl (by decide))
    (by decide)
  exact ⟨h.1, h.2.1⟩

/-! ## Claim C10 — truncation safety of JsonEscape -/

/-- C10: for any destination capacity of at least 2 bytes, `JsonEscape`
writes at most capacity − 1 characters (plus the NUL terminator), and
its output is a sequence of complete (possibly escaped) characters — in
particular it never ends in an unpaired escape backslash, so truncation
falls on a character boundary. -/
theorem C10_escape_truncation (s : String) (imax : Nat) (h2 : 2 ≤ imax) :
    (JsonEscape s imax).data.length ≤ imax - 1 ∧
    EscapedForm (JsonEscape s imax).data := by
  constructor
  · rcases escapeAux_length s.data imax 0 with h | h
    · simpa using h
    · show (JsonEscapeAux s.data 0 imax).length ≤ imax - 1
      rw [h]
      simp
  · exact escapeAux_escapedForm s.data imax 0

/-- Witness for C10 at a concrete input. -/
theorem C10_escape_truncation_witness :
    (JsonEscape "a\"" 4).data.length ≤ 3 ∧
    EscapedForm (JsonEscape "a\"" 4).data :=
  C10_escape_truncation "a\"" 4 (by decide)

/-! ## strstr / strchr lemmas -/

theorem leadsWith_iff (pat : List Char) :
    ∀ l, leadsWith pat l = true ↔ ∃ t, l = pat ++ t := by
  induction pat with
  | nil =>
    intro l
    constructor
    · intro _; exact ⟨l, rfl⟩
    · intro _; rfl
  | cons p ps ih =>
    intro l
    cases l with
    | nil =>
      constructor
      · intro h; simp [leadsWith] at h
      · rintro ⟨t, ht⟩; simp at ht
    | cons c cs =>
      simp only [leadsWith, Bool.and_eq_true, beq_iff_eq]
      constructor
      · rintro ⟨hpc, h⟩
        rcases (ih cs).mp h with ⟨t, ht⟩
        exact ⟨t, by rw [List.cons_append, ← hpc, ht]⟩
      · rintro ⟨t, ht⟩
        rw [List.cons_append] at ht
        injection ht with h1 h2
        exact ⟨h1.symm, (ih cs).mpr ⟨t, h2⟩⟩

theorem strstrSuffix_some (pat : List Char) :
    ∀ hay s, strstrSuffix pat hay = some s →
      (∃ pre, hay = pre ++ s) ∧ leadsWith pat s = true := by
  intro hay
  induction hay with
  | nil =>
    intro s h
    simp only [strstrSuffix] at h
    by_cases hc : leadsWith pat [] = true
    · rw [if_pos hc] at h
      injection h with h1
      subst h1
      exact ⟨⟨[], rfl⟩, hc⟩
    · rw [if_neg hc] at h
      exact absurd h (by simp)
  | cons c rest ih =>
    intro s h
    simp only [strstrSuffix] at h
    by_cases hc : leadsWith pat (c :: rest) = true
    · rw [if_pos hc] at h
      injection h with h1
      subst h1
      exact ⟨⟨[], rfl⟩, hc⟩
    · rw [if_neg hc] at h
      rcases ih s h with ⟨⟨pre, hp⟩, hl⟩
      exact ⟨⟨c :: pre, by rw [List.cons_append, hp]⟩, hl⟩

theorem strstrSuffix_isSome_of_leads (pat hay : List Char)
    (h : leadsWith pat hay = true) : (strstrSuffix pat hay).isSome = true := by
  cases hay with
  | nil => simp only [strstrSuffix]; rw [if_pos h]; rfl
  | cons c rest => simp only [strstrSuffix]; rw [if_pos h]; rfl

theorem strstrSuffix_found (pat : List Char) :
    ∀ (pre t : List Char),
      (strstrSuffix pat (pre ++ (pat ++ t))).isSome = true := by
  intro pre
  induction pre with
  | nil =>
    intro t
    rw [List.nil_append]
    exact strstrSuffix_isSome_of_leads pat (pat ++ t)
      ((leadsWith_iff pat (pat ++ t)).mpr ⟨t, rfl⟩)
  | cons c pre2 ih =>
    intro t
    rw [List.cons_append]
    by_cases hc : leadsWith pat (c :: (pre2 ++ (pat ++ t))) = true
    · exact strstrSuffix_isSome_of_leads pat _ hc
    · simp only [strstrSuffix]
      rw [if_neg hc]
      exact ih t

theorem takeUntilQuote_some :
    ∀ l m, takeUntilQuote l = some m →
      (∃ t, l = m ++ '"' :: t) ∧ '"' ∉ m := by
  intro l
  induction l with
  | nil => intro m h; simp [takeUntilQuote] at h
  | cons c rest ih =>
    intro m h
    simp only [takeUntilQuote] at h
    by_cases hc : c = '"'
    · rw [if_pos hc] at h
      injection h with h1
      subst h1
      exact ⟨⟨rest, by simp [hc]⟩, by simp⟩
    · rw [if_neg hc] at h
      cases hr : takeUntilQuote rest with
      | none => rw [hr] at h; simp at h
      | some m2 =>
        rw [hr] at h
        have h1 : c :: m2 = m := by
          simpa using h
        subst h1
        rcases ih m2 hr with ⟨⟨t, ht⟩, hnq⟩
        refine ⟨⟨t, by rw [List.cons_append, ht]⟩, ?_⟩
        intro hmem
        rcases List.mem_cons.mp hmem with h2 | h2
        · exact hc h2.symm
        · exact hnq h2

theorem containsSeq_iff (pat hay : List Char) :
    containsSeq pat hay = true ↔ ∃ pre t, hay = pre ++ (pat ++ t) := by
  constructor
  · intro h
    unfold containsSeq at h
    cases hs : strstrSuffix pat hay with
    | none => rw [hs] at h; simp at h
    | some suff =>
      rcases strstrSuffix_some pat hay suff hs with ⟨⟨pre, hp⟩, hl⟩
      rcases (leadsWith_iff pat suff).mp hl with ⟨t, ht⟩
      exact ⟨pre, t, by rw [hp, ht]⟩
  · rintro ⟨pre, t, ht⟩
    unfold containsSeq
    rw [ht]
    exact strstrSuffix_found pat pre t

/-! ## Claim C4 — response classification -/

/-- C4: `classifyResponse` declares success exactly when the body
contains one of the three literal markers; when it fails with an
extracted message, that message is the verbatim quoted value following a
`"message":"` key occurrence in the body (and contains no quote); and
the generic unrecognized-response error is produced exactly when no
`"message":"` key occurs at all. -/
theorem C4_classifyResponse (body s : String) :
    (classifyResponse body = RespClass.ok ↔
      ((∃ l r, body.data = l ++ ("\"evt\":\"READY\"".data ++ r)) ∨
       (∃ l r, body.data = l ++ ("\"cmd\":\"SET_ACTIVITY\"".data ++ r)) ∨
       (∃ l r, body.data = l ++ ("\"code\":0".data ++ r)))) ∧
    (classifyResponse body = RespClass.errMsg s →
      (∃ l r, body.data = l ++ (msgKey.data ++ (s.data ++ ('"' :: r)))) ∧
      '"' ∉ s.data) ∧
    (classifyResponse body = RespClass.errUnrecognized →
      ∀ l r, body.data ≠ l ++ (msgKey.data ++ r)) := by
  refine ⟨?_, ?_, ?_⟩
  · constructor
    · intro h
      by_cases hm : hasMarker body = true
      · unfold hasMarker at hm
        simp only [Bool.or_eq_true] at hm
        rcases hm with (h1 | h1) | h1
        · exact Or.inl ((containsSeq_iff _ _).mp h1)
        · exact Or.inr (Or.inl ((containsSeq_iff _ _).mp h1))
        · exact Or.inr (Or.inr ((containsSeq_iff _ _).mp h1))
      · exfalso
        simp only [classifyResponse] at h
        rw [if_neg hm] at h
        split at h
        · simp at h
        · split at h
          · simp at h
          · simp at h
    · intro hd
      have hm : hasMarker body = true := by
        unfold hasMarker
        simp only [Bool.or_eq_true]
        rcases hd with h1 | h1 | h1
        · exact Or.inl (Or.inl ((containsSeq_iff _ _).mpr h1))
        · exact Or.inl (Or.inr ((containsSeq_iff _ _).mpr h1))
        · exact Or.inr ((containsSeq_iff _ _).mpr h1)
      simp only [classifyResponse]
      rw [if_pos hm]
  · intro h
    by_cases hm : hasMarker body = true
    · exfalso
      simp only [classifyResponse] at h
      rw [if_pos hm] at h
      simp at h
    · simp only [classifyResponse] at h
      rw [if_neg hm] at h
      split at h
      · simp at h
      · rename_i suff hs
        split at h
        · simp at h
        · rename_i m hqq
          have hm2 : (⟨m⟩ : String) = s := by
            injection h
          have hmd : m = s.data := by rw [← hm2]
          rcases strstrSuffix_some _ _ _ hs with ⟨⟨pre, hp⟩, hl⟩
          rcases (leadsWith_iff _ _).mp hl with ⟨t, ht⟩
          have hlen : msgKey.data.length = 11 := by decide
          have hdrop : suff.drop 11 = t := by
            rw [ht, ← hlen, List.drop_left]
          rw [hdrop] at hqq
          rcases takeUntilQuote_some t m hqq with ⟨⟨t2, ht2⟩, hnq⟩
          constructor
          · exact ⟨pre, t2, by rw [hp, ht, ht2, ← hmd]⟩
          · rw [← hmd]
            exact hnq
  · intro h l r he
    by_cases hm : hasMarker body = true
    · simp only [classifyResponse] at h
      rw [if_pos hm] at h
      simp at h
    · simp only [classifyResponse] at h
      rw [if_neg hm] at h
      split at h
      · rename_i hs
        have hf := strstrSuffix_found msgKey.data l r
        rw [← he] at hf
        rw [hs] at hf
        simp at hf
      · split at h
        · simp at h
        · simp at h

/-- Witness for C4 at a concrete failing body with a `message` field. -/
theorem C4_classifyResponse_witness :
    (∃ l r, "\x7b\"message\":\"oops\"\x7d".data =
      l ++ (msgKey.data ++ ("oops".data ++ ('"' :: r)))) ∧
    '"' ∉ "oops".data :=
  (C4_classifyResponse "\x7b\"message\":\"oops\"\x7d" "oops").2.1 (by decide)

/-! ## Claim C5 — presence formatting -/

/-- C5 counterexample: the claim demands the state line *equal*
`"Artist - Album"` whenever both show flags are set and both fields are
non-empty, but `snprintf` into the 128-byte `sz_state` truncates: with a
100-character artist and a 100-character album the state is the first
127 characters of the composed line, not the line itself. -/
theorem C5_update_formatting_counterexample :
    (Impl_Update_format ⟨0, true, true, true⟩
        ⟨"t", ⟨List.replicate 100 'a'⟩, ⟨List.replicate 100 'b'⟩,
          5, 9, false, false, true⟩).sz_state ≠
      (⟨List.replicate 100 'a'⟩ : String) ++ " - " ++
        (⟨List.replicate 100 'b'⟩ : String) ∧
    (⟨List.replicate 100 'a'⟩ : String) ≠ "" ∧
    (⟨List.replicate 100 'b'⟩ : String) ≠ "" := by
  decide

/-- C5 (amended): `Impl_Update` formats the presence as the claim states,
except that every text field passes through `snprintf` with a 128-byte
buffer, so the state line is the 127-character truncation of the
composed `"Artist - Album"` / `"Artist"` / `"Album"` line (exact
whenever the composed line fits). -/
theorem C5_update_formatting (st : Settings) (md : Metadata) :
    (md.b_is_playing = false →
      Impl_Update_format st md =
        { Presence.empty with
            sz_details := "Idling",
            sz_large_image := "large_image_default",
            sz_large_text := "VLC Media Player" }) ∧
    (md.b_is_playing = true → md.b_is_paused = true →
      (Impl_Update_format st md).sz_small_image = "pause" ∧
      (Impl_Update_format st md).sz_small_text = "Paused" ∧
      (Impl_Update_format st md).i_start_time = 0 ∧
      (Impl_Update_format st md).i_end_time = 0) ∧
    (md.b_is_playing = true → md.b_is_paused = false →
      (Impl_Update_format st md).sz_small_image = "play" ∧
      (Impl_Update_format st md).sz_small_text = "Playing" ∧
      (Impl_Update_format st md).i_start_time = md.i_start_time ∧
      (Impl_Update_format st md).i_end_time = md.i_end_time) ∧
    (md.b_is_playing = true →
      (Impl_Update_format st md).sz_state = snprintf128 (stateLineSpec st md)) := by
  have e1 : snprintf128 "pause" = "pause" := by decide
  have e2 : snprintf128 "Paused" = "Paused" := by decide
  have e3 : snprintf128 "play" = "play" := by decide
  have e4 : snprintf128 "Playing" = "Playing" := by decide
  have e5 : snprintf128 "large_image_default" = "large_image_default" := by decide
  have e6 : snprintf128 "VLC Media Player" = "VLC Media Player" := by decide
  have e7 : snprintf128 "Idling" = "Idling" := by decide
  have e8 : snprintf128 "" = "" := by decide
  by_cases hp : md.b_is_playing = true <;>
  by_cases hpa : md.b_is_paused = true <;>
  by_cases hsa : st.b_show_artist = true <;>
  by_cases har : md.sz_artist = "" <;>
  by_cases hsb : st.b_show_album = true <;>
  by_cases hal : md.sz_album = "" <;>
    simp_all [Impl_Update_format, stateLineSpec, Presence.empty]

/-- Witness for C5 at concrete metadata: playing, artist "A", album "B",
both flags shown. -/
theorem C5_update_formatting_witness :
    (Impl_Update_format ⟨0, true, true, true⟩
        ⟨"t", "A", "B", 5, 9, false, false, true⟩).sz_small_image = "play" ∧
    (Impl_Update_format ⟨0, true, true, true⟩
        ⟨"t", "A", "B", 5, 9, false, false, true⟩).sz_state =
      snprintf128 (stateLineSpec ⟨0, true, true, true⟩
        ⟨"t", "A", "B", 5, 9, false, false, true⟩) := by
  have h := C5_update_formatting ⟨0, true, true, true⟩
    ⟨"t", "A", "B", 5, 9, false, false, true⟩
  exact ⟨(h.2.2.1 rfl rfl).1, h.2.2.2 rfl⟩

/-! ## Claim C6 — endpoint discovery -/

theorem scan_range'_some (env : ConnEnv) :
    ∀ (n i k : Nat), Impl_Connect_scan env (List.range' i n) = some k →
      i ≤ k ∧ k < i + n ∧ tryCandidate env k = true ∧
      ∀ j, i ≤ j → j < k → tryCandidate env j = false := by
  intro n
  induction n with
  | zero =>
    intro i k h
    rw [show List.range' i 0 = [] from rfl] at h
    simp [Impl_Connect_scan] at h
  | succ n ih =>
    intro i k h
    rw [List.range'_succ] at h
    simp only [Impl_Connect_scan] at h
    by_cases ht : tryCandidate env i = true
    · rw [if_pos ht] at h
      injection h with h1
      subst h1
      exact ⟨le_refl i, by omega, ht, fun j h1 h2 => absurd h2 (by omega)⟩
    · rw [if_neg ht] at h
      rcases ih (i + 1) k h with ⟨h1, h2, h3, h4⟩
      refine ⟨by omega, by omega, h3, ?_⟩
      intro j hij hjk
      rcases Nat.eq_or_lt_of_le hij with he | hlt
      · rw [← he]
        simpa using ht
      · exact h4 j (by omega) hjk

theorem scan_range'_none (env : ConnEnv) :
    ∀ (n i : Nat), Impl_Connect_scan env (List.range' i n) = none →
      ∀ j, i ≤ j → j < i + n → tryCandidate env j = false := by
  intro n
  induction n with
  | zero =>
    intro i h j hij hj
    exact absurd hj (by omega)
  | succ n ih =>
    intro i h j hij hj
    rw [List.range'_succ] at h
    simp only [Impl_Connect_scan] at h
    by_cases ht : tryCandidate env i = true
    · rw [if_pos ht] at h
      simp at h
    · rw [if_neg ht] at h
      rcases Nat.eq_or_lt_of_le hij with he | hlt
      · rw [← he]
        simpa using ht
      · exact ih (i + 1) h j (by omega) (by omega)

/-- C6: `Impl_Connect` tries candidate indices 0..9 in order and succeeds
exactly at the first index whose socket opens and whose
connect-plus-handshake succeeds on the primary path or (socket strategy,
with a distinct fallback directory) on the `/tmp` fallback; when every
candidate fails it returns failure after reporting through the error
sink, with no candidate chosen. -/
theorem C6_connect_first_candidate (env : ConnEnv) (k : Nat) :
    ((Impl_Connect env).chosen = some k →
      k < 10 ∧ tryCandidate env k = true ∧
      (∀ j, j < k → tryCandidate env j = false) ∧
      (Impl_Connect env).success = true ∧
      (Impl_Connect env).errorReported = false) ∧
    ((Impl_Connect env).success = false →
      (∀ j, j < 10 → tryCandidate env j = false) ∧
      (Impl_Connect env).errorReported = true ∧
      (Impl_Connect env).chosen = none) := by
  constructor
  · intro h
    cases hs : Impl_Connect_scan env (List.range 10) with
    | none =>
      have hI : Impl_Connect env = ⟨false, none, true⟩ := by
        unfold Impl_Connect
        rw [hs]
      rw [hI] at h
      simp at h
    | some k2 =>
      have hI : Impl_Connect env = ⟨true, some k2, false⟩ := by
        unfold Impl_Connect
        rw [hs]
      rw [hI] at h
      have hk : k2 = k := by simpa using h
      subst hk
      rw [List.range_eq_range'] at hs
      rcases scan_range'_some env 10 0 k2 hs with ⟨_, h2, h3, h4⟩
      exact ⟨by omega, h3, fun j hj => h4 j (Nat.zero_le j) hj,
        by rw [hI], by rw [hI]⟩
  · intro h
    cases hs : Impl_Connect_scan env (List.range 10) with
    | some k2 =>
      have hI : Impl_Connect env = ⟨true, some k2, false⟩ := by
        unfold Impl_Connect
        rw [hs]
      rw [hI] at h
      simp at h
    | none =>
      have hI : Impl_Connect env = ⟨false, none, true⟩ := by
        unfold Impl_Connect
        rw [hs]
      rw [List.range_eq_range'] at hs
      refine ⟨fun j hj =>
        scan_range'_none env 10 0 hs j (Nat.zero_le j) (by omega),
        by rw [hI], by rw [hI]⟩

/-- Witness for C6 at a concrete environment where only index 3
(primary location) accepts: index 3 is viable and indices 0..2 are not. -/
theorem C6_connect_first_candidate_witness :
    tryCandidate ⟨true, fun _ => true, fun i _ => i == 3, fun _ _ => true⟩ 3
      = true ∧
    (∀ j, j < 3 →
      tryCandidate ⟨true, fun _ => true, fun i _ => i == 3, fun _ _ => true⟩ j
        = false) := by
  have h := (C6_connect_first_candidate
    ⟨true, fun _ => true, fun i _ => i == 3, fun _ _ => true⟩ 3).1 (by decide)
  exact ⟨h.2.1, h.2.2.1⟩

/-! ## Claim C7 — stop from Connected -/

/-- C7: stopping while connected (handle valid, worker in its update
loop) makes the worker leave its loop and run the IPC close: exactly one
clear-activity send on the live handle, immediately followed by closing
that handle, then the worker exits — and only after that does `stop()`
(`Impl_Close` in discord.c, via `vlc_join`) return. -/
theorem C7_stop_clear_once (st : IpcSt) (g : Nat) (h : st.handle = some g) :
    stopFromRunning st =
      [Ev.ioClear g, Ev.closed g, Ev.workerExit, Ev.stopReturn] ∧
    (stopFromRunning st).count (Ev.ioClear g) = 1 := by
  have h1 : stopFromRunning st =
      [Ev.ioClear g, Ev.closed g, Ev.workerExit, Ev.stopReturn] := by
    simp [stopFromRunning, ipcCloseStep, h]
  refine ⟨h1, ?_⟩
  rw [h1]
  simp

/-- Witness for C7 at a concrete connected state. -/
theorem C7_stop_clear_once_witness :
    stopFromRunning ⟨some 5, true, 6⟩ =
      [Ev.ioClear 5, Ev.closed 5, Ev.workerExit, Ev.stopReturn] :=
  (C7_stop_clear_once ⟨some 5, true, 6⟩ 5 rfl).1

/-! ## Claim C8 — handle invalidation invariant -/

/-- C8: the claimed invariant — a closed/invalid handle is never reused
for I/O without re-running the connect sequence — fails on the code: a
fully failed POSIX connect loop (Discord absent, all 10 candidates
refuse) closes each socket but leaves the last (closed) descriptor in
`p_sys->handle`, never resetting it to `INVALID_PIPE`; the subsequent
`Impl_Close` therefore sees a "valid" handle, sends the clear-activity
frame on the already-closed descriptor and closes it a second time.
The connect loop reports failure (first conjunct), the stored handle is
the stale generation 9 (second conjunct), and the combined trace
performs I/O on a generation already closed (third conjunct). -/
theorem C8_stale_handle_after_failed_connect :
    (connectLoop true IpcSt.init (List.replicate 10 allFailOutcome)).2.2
      = false ∧
    (connectLoop true IpcSt.init (List.replicate 10 allFailOutcome)).1.handle
      = some 9 ∧
    noUseAfterClose
      ((connectLoop true IpcSt.init (List.replicate 10 allFailOutcome)).2.1 ++
        (ipcCloseStep
          (connectLoop true IpcSt.init
            (List.replicate 10 allFailOutcome)).1).2) = false := by
  decide

/-! ## Claim C9 — client-id validation -/

theorem digit_not_space (c : Char) (h : c.isDigit = true) : isSpaceC c = false := by
  by_contra hs
  have hs2 : isSpaceC c = true := by
    revert hs
    cases isSpaceC c <;> simp
  simp only [isSpaceC, Bool.or_eq_true, beq_iff_eq] at hs2
  rcases hs2 with ((((h1 | h1) | h1) | h1) | h1) | h1 <;>
    (rw [h1] at h; exact absurd h (by decide))

theorem digit_not_plus (c : Char) (h : c.isDigit = true) : ¬ c = '+' := by
  intro he
  rw [he] at h
  exact absurd h (by decide)

theorem digit_not_minus (c : Char) (h : c.isDigit = true) : ¬ c = '-' := by
  intro he
  rw [he] at h
  exact absurd h (by decide)

theorem takeWhileAll {p : Char → Bool} :
    ∀ l : List Char, (∀ c ∈ l, p c = true) → l.takeWhile p = l := by
  intro l
  induction l with
  | nil => intro _; rfl
  | cons c rest ih =>
    intro h
    rw [List.takeWhile_cons, if_pos (h c (List.mem_cons_self c rest))]
    rw [ih (fun d hd => h d (List.mem_cons_of_mem c hd))]

/-- `strtoull` on a pure digit run: consumes everything; the value is the
digit run's numeric value, clamped to `ULLONG_MAX` on overflow. -/
theorem strtoull10_digits (l : List Char) (hne : l ≠ [])
    (hdig : ∀ c ∈ l, c.isDigit = true) :
    strtoull10 l =
      (if 2 ^ 64 ≤ digitsVal l then 2 ^ 64 - 1 else digitsVal l, l.length) := by
  cases l with
  | nil => exact absurd rfl hne
  | cons c rest =>
    have hc := hdig c (List.mem_cons_self c rest)
    have hws : (c :: rest).takeWhile isSpaceC = [] := by
      rw [List.takeWhile_cons, if_neg (by simp [digit_not_space c hc])]
    have hsp : splitSign (c :: rest) = (false, c :: rest, 0) := by
      simp [splitSign, digit_not_plus c hc, digit_not_minus c hc]
    have hds : (c :: rest).takeWhile Char.isDigit = c :: rest :=
      takeWhileAll _ hdig
    unfold strtoull10
    rw [hws]
    simp only [List.length_nil, List.drop_zero, hsp, hds]
    rw [if_neg (by simp)]
    simp

/-- C9 counterexample: the claim accepts exactly the strings of 17-20
decimal digits, every other configured string loading the default — but
`"+1234567890123456"` (a sign followed by 16 digits, length 17) is fully
consumed by `strtoull` and passes the length check, so the code loads
1234567890123456 instead of the default. -/
theorem C9_client_id_counterexample :
    DiscordRPC_LoadClientId (some "+1234567890123456") = 1234567890123456 ∧
    ¬ (∀ c ∈ "+1234567890123456".data, c.isDigit = true) ∧
    (1234567890123456 : Nat) ≠ defaultClientId := by
  decide

/-- C9 (amended): a missing configuration string loads the default; a
string of 17-20 decimal digits whose value fits in 64 bits loads exactly
its numeric value; and every string rejected by the code's check (no
digits consumed, trailing characters after the parsed prefix, or length
outside 17-20) loads the default.  (Strings accepted by `strtoull` with
leading whitespace or a sign, and overflowing digit strings clamped to
`2^64 - 1`, are the deviations the counterexample exhibits.) -/
theorem C9_client_id (s : String) :
    (DiscordRPC_LoadClientId none = defaultClientId) ∧
    ((∀ c ∈ s.data, c.isDigit = true) → 17 ≤ s.data.length →
      s.data.length ≤ 20 → digitsVal s.data < 2 ^ 64 →
      DiscordRPC_LoadClientId (some s) = digitsVal s.data) ∧
    (((strtoull10 s.data).2 = 0 ∨ (strtoull10 s.data).2 ≠ s.data.length ∨
        s.data.length < 17 ∨ 20 < s.data.length) →
      DiscordRPC_LoadClientId (some s) = defaultClientId) := by
  refine ⟨rfl, ?_, ?_⟩
  · intro hdig h17 h20 hfit
    have hne : s.data ≠ [] := by
      intro h
      rw [h] at h17
      simp at h17
    simp only [DiscordRPC_LoadClientId]
    rw [strtoull10_digits s.data hne hdig]
    rw [if_neg (by omega)]
    rw [if_neg (by omega)]
  · intro hcond
    simp only [DiscordRPC_LoadClientId]
    rw [if_pos hcond]

/-- Witness for C9 at a concrete 17-digit configured string. -/
theorem C9_client_id_witness :
    DiscordRPC_LoadClientId (some "12345678901234567") =
      digitsVal "12345678901234567".data :=
  (C9_client_id "12345678901234567").2.1 (by decide) (by decide) (by decide)
    (by decide)

/-! ## Claim C2 — SET_ACTIVITY body construction -/

theorem strAppend_empty (a : String) : a ++ "" = a :=
  strEq_of_data (by simp [strData_append, show ("" : String).data = [] from rfl])

theorem strEmpty_append (a : String) : "" ++ a = a :=
  strEq_of_data (by simp [strData_append, show ("" : String).data = [] from rfl])

theorem joinComma_append_single (xs : List String) (y : String) :
    joinComma (xs ++ [y]) =
      joinComma xs ++ (if xs.isEmpty then "" else ",") ++ y := by
  induction xs with
  | nil =>
    apply strEq_of_data
    simp [strData_append, joinComma, show ("" : String).data = [] from rfl]
  | cons x xs ih =>
    cases xs with
    | nil =>
      show joinComma [x, y] = joinComma [x] ++ (if false = true then "" else ",") ++ y
      simp only [joinComma]
      rw [if_neg (by simp)]
    | cons x2 xs2 =>
      show joinComma (x :: (x2 :: xs2 ++ [y])) =
        joinComma (x :: x2 :: xs2) ++ (if false = true then "" else ",") ++ y
      rw [if_neg (by simp)]
      have hcons : joinComma (x :: (x2 :: xs2 ++ [y])) =
          x ++ "," ++ joinComma (x2 :: xs2 ++ [y]) := by
        rw [show x :: (x2 :: xs2 ++ [y]) = x :: x2 :: (xs2 ++ [y]) from rfl]
        rfl
      have hcons2 : joinComma (x :: x2 :: xs2) =
          x ++ "," ++ joinComma (x2 :: xs2) := rfl
      rw [hcons]
      rw [show (x2 :: xs2 ++ [y]) = (x2 :: xs2) ++ [y] from rfl, ih]
      rw [if_neg (by simp), hcons2]
      apply strEq_of_data
      simp [strData_append, List.append_assoc]

/-- The source's comma bookkeeping is the comma-join of the list of
emitted fragments: one `emitFrag` step appends an optional fragment. -/
theorem emitFrag_inv (j0 : String) (frags : List String) (cond : Bool)
    (frag : String) :
    emitFrag (j0 ++ joinComma frags, !frags.isEmpty) cond frag =
      (j0 ++ joinComma (frags ++ if cond then [frag] else []),
       !(frags ++ if cond then [frag] else []).isEmpty) := by
  cases cond with
  | false =>
    have hrw : (if (false = true) then [frag] else ([] : List String)) = [] := by
      simp
    rw [hrw, List.append_nil]
    unfold emitFrag
    rw [if_neg (by simp : ¬ (false = true))]
  | true =>
    have hrw : (if (true = true) then [frag] else ([] : List String)) = [frag] := by
      simp
    rw [hrw]
    unfold emitFrag
    rw [if_pos rfl, joinComma_append_single]
    have hne : (frags ++ [frag]).isEmpty = false := by
      cases frags <;> rfl
    rw [hne]
    cases he : frags.isEmpty with
    | true =>
      have hf : frags = [] := by
        cases frags with
        | nil => rfl
        | cons a b => simp at he
      subst hf
      refine Prod.ext ?_ rfl
      apply strEq_of_data
      simp [strData_append, List.append_assoc, joinComma,
        show ("" : String).data = [] from rfl]
    | false =>
      refine Prod.ext ?_ rfl
      apply strEq_of_data
      simp [strData_append, List.append_assoc]

/-- Four chained `emitFrag` steps starting from an empty fragment set. -/
theorem emitFrag_chain (j0 : String) (b1 b2 b3 b4 : Bool)
    (f1 f2 f3 f4 : String) :
    emitFrag (emitFrag (emitFrag (emitFrag (j0, false) b1 f1) b2 f2) b3 f3)
        b4 f4 =
      (j0 ++ joinComma ((((if b1 then [f1] else []) ++
          (if b2 then [f2] else [])) ++ (if b3 then [f3] else [])) ++
          (if b4 then [f4] else [])),
       !(((((if b1 then [f1] else []) ++ (if b2 then [f2] else [])) ++
          (if b3 then [f3] else [])) ++ (if b4 then [f4] else []))).isEmpty) := by
  have h0 : ((j0, false) : String × Bool) =
      (j0 ++ joinComma [], !(List.isEmpty ([] : List String))) := by
    refine Prod.ext ?_ rfl
    apply strEq_of_data
    simp [strData_append, joinComma, show ("" : String).data = [] from rfl]
  rw [h0, emitFrag_inv, emitFrag_inv, emitFrag_inv, emitFrag_inv,
    List.nil_append]

/-- With capacity 256 the escaped form of a NUL-free string is empty
exactly when the string is. -/
theorem jsonEscape256_ne_iff (s : String) (hnul : '\x00' ∉ s.data) :
    (JsonEscape s 256 ≠ "") ↔ (s ≠ "") := by
  constructor
  · intro h hs
    rw [hs] at h
    exact h rfl
  · intro h he
    apply h
    cases hs : s.data with
    | nil =>
      apply strEq_of_data
      rw [hs]
    | cons c rest =>
      exfalso
      have hc : ¬ c = '\x00' := by
        intro h0
        apply hnul
        rw [hs, h0]
        exact List.mem_cons_self _ _
      have hdata : (JsonEscape s 256).data = JsonEscapeAux (c :: rest) 0 256 := by
        show JsonEscapeAux s.data 0 256 = _
        rw [hs]
      rw [he] at hdata
      have hne : JsonEscapeAux (c :: rest) 0 256 ≠ [] := by
        simp only [JsonEscapeAux]
        rw [if_neg hc, if_pos (by omega : (0 : Nat) < 256 - 2)]
        by_cases hesc : needsEscape c = true
        · rw [if_pos hesc]; simp
        · rw [if_neg hesc]; simp
      exact hne (by rw [← hdata])

/-- C2 counterexample: the claim puts an `assets` object in the activity
iff any of the four image/text fields is non-empty, but the source only
tests the two image keys (`sz_large_image[0] || sz_small_image[0]`): a
presence whose only non-empty field is the large-image hover text
produces an empty activity object with no `assets` key at all. -/
theorem C2_buildSetActivity_counterexample :
    buildSetActivity 1 "123456" { Presence.empty with sz_large_text := "T" } =
      "\x7b\"cmd\":\"SET_ACTIVITY\",\"args\":\x7b\"pid\":1,\"activity\":\x7b\x7d\x7d,\"nonce\":\"123456\"\x7d" ∧
    ({ Presence.empty with sz_large_text := "T" } : Presence).sz_large_text
      ≠ "" := by
  decide

/-- C2 (amended): the activity object built by `Impl_SetPresence`
contains exactly one fragment per non-empty field group — a `state` key
iff the state is non-empty, a `details` key iff the details are
non-empty, a `timestamps` object iff start > 0 (with an `end` key inside
iff end > 0), and an `assets` object iff *either image field* is
non-empty, the (escaped) text fields appearing inside it only when it
exists at all; a presence with every text field empty and zero
timestamps yields an empty activity object. -/
theorem C2_buildSetActivity (p : Presence) (pid : Nat) (nonce : String)
    (h1 : '\x00' ∉ p.sz_state.data) (h2 : '\x00' ∉ p.sz_details.data)
    (h3 : '\x00' ∉ p.sz_large_text.data) (h4 : '\x00' ∉ p.sz_small_text.data) :
    buildSetActivity pid nonce p =
      "\x7b\"cmd\":\"SET_ACTIVITY\",\"args\":\x7b\"pid\":" ++ toString pid ++
        ",\"activity\":\x7b" ++ joinComma (activityFragsSpec p) ++
        "\x7d\x7d,\"nonce\":\"" ++ nonce ++ "\"\x7d" ∧
    buildSetActivity pid nonce Presence.empty =
      "\x7b\"cmd\":\"SET_ACTIVITY\",\"args\":\x7b\"pid\":" ++ toString pid ++
        ",\"activity\":\x7b\x7d\x7d,\"nonce\":\"" ++ nonce ++ "\"\x7d" := by
  have key : ∀ (q : Presence), '\x00' ∉ q.sz_state.data →
      '\x00' ∉ q.sz_details.data → '\x00' ∉ q.sz_large_text.data →
      '\x00' ∉ q.sz_small_text.data →
      buildSetActivity pid nonce q =
        "\x7b\"cmd\":\"SET_ACTIVITY\",\"args\":\x7b\"pid\":" ++ toString pid ++
          ",\"activity\":\x7b" ++ joinComma (activityFragsSpec q) ++
          "\x7d\x7d,\"nonce\":\"" ++ nonce ++ "\"\x7d" := by
    intro q hq1 hq2 hq3 hq4
    have ec1 : decide (JsonEscape q.sz_state 256 ≠ "") =
        decide (q.sz_state ≠ "") :=
      decide_eq_decide.mpr (jsonEscape256_ne_iff q.sz_state hq1)
    have ec2 : decide (JsonEscape q.sz_details 256 ≠ "") =
        decide (q.sz_details ≠ "") :=
      decide_eq_decide.mpr (jsonEscape256_ne_iff q.sz_details hq2)
    have ec3 : decide (JsonEscape q.sz_large_text 256 ≠ "") =
        decide (q.sz_large_text ≠ "") :=
      decide_eq_decide.mpr (jsonEscape256_ne_iff q.sz_large_text hq3)
    have ec4 : decide (JsonEscape q.sz_small_text 256 ≠ "") =
        decide (q.sz_small_text ≠ "") :=
      decide_eq_decide.mpr (jsonEscape256_ne_iff q.sz_small_text hq4)
    simp only [buildSetActivity]
    rw [emitFrag_chain, emitFrag_chain]
    simp only [ec1, ec2, ec3, ec4]
    rw [strEmpty_append]
    apply strEq_of_data
    simp only [strData_append, List.append_assoc, List.nil_append,
      activityFragsSpec, assetFragsSpec, decide_eq_true_eq]
  refine ⟨key p h1 h2 h3 h4, ?_⟩
  rw [key Presence.empty (by decide) (by decide) (by decide) (by decide)]
  have hE : activityFragsSpec Presence.empty = [] := by decide
  rw [hE]
  apply strEq_of_data
  simp [strData_append, List.append_assoc, List.cons_append, List.nil_append,
    joinComma, show ("" : String).data = [] from rfl]

/-- Witness for C2 at a concrete presence with a state, timestamps and a
large image. -/
theorem C2_buildSetActivity_witness :
    buildSetActivity 7 "999999"
        ⟨"s", "", "", "", "img", "", 5, 9⟩ =
      "\x7b\"cmd\":\"SET_ACTIVITY\",\"args\":\x7b\"pid\":" ++ toString 7 ++
        ",\"activity\":\x7b" ++
        joinComma (activityFragsSpec ⟨"s", "", "", "", "img", "", 5, 9⟩) ++
        "\x7d\x7d,\"nonce\":\"" ++ "999999" ++ "\"\x7d" :=
  (C2_buildSetActivity ⟨"s", "", "", "", "img", "", 5, 9⟩ 7 "999999"
    (by decide) (by decide) (by decide) (by decide)).1
